import Mathlib

/-!
Verification development for the `aesdsocket` TCP server
(`server/aesdsocket_backup.c`).

The server accumulates newline-delimited records received on a client
socket into a persistent append-only file and, after each complete
record, echoes the whole file back to the client.  We give a shallow
embedding of the C functions:

* `append_to_file` — models the C function of the same name
  (open `O_WRONLY|O_CREAT|O_APPEND`, write loop retrying short writes
  and `EINTR`, close).  I/O outcomes (success / `EINTR` / other error)
  that the operating system returns for each syscall are supplied as an
  explicit oracle, so the model is a pure function.
* `send_file_contents` — models the C function of the same name
  (open read-only, read in 1024-byte chunks, per-chunk send loop
  retrying `EINTR`, close).
* `signal_handler` / `flagAfter` — the `SIGINT`/`SIGTERM` handler that
  latches `exit_requested`, and the flag value after a list of delivered
  signals.
* `scanPackets` / `handle_client_loop` / `handle_client` — the
  per-connection handler (`handle_client` in C): the `recv` loop, the
  growable packet buffer, the scan for `'\n'`-terminated records, the
  per-record append + echo, and the removal of processed bytes from the
  buffer.  At this level the file operations are abstracted to their
  outcome (`RecOut`): `.ok` means append and echo both succeeded (on
  success the C helpers append exactly the record and send exactly the
  file contents), `.appendFail` means the append attempt failed having
  written nothing (e.g. `open` failed), `.sendFail` means the record was
  appended but the echo failed (only fully successful echoes are
  recorded in `responses`).
* `accept_loop` / `main` — the accept loop and the `main` function
  including the setup phase (sigaction ×2, socket, setsockopt, bind,
  listen) and the cleanup path (close listening socket, `remove` the
  data file ignoring `ENOENT`, return `ret`).

Bytes are modelled as `Nat`; the record delimiter `'\n'` is byte `10`;
`SIGINT = 2`, `SIGTERM = 15`.  Loops whose iteration count is driven by
the outside world (recv, accept, read/write retries) recurse on the
finite list of supplied outcomes; exhausting that list models the loop
still running, reported as a `hang`/`none` result distinct from success
and error.
-/

namespace AesdSocket

/-- Outcome of an `open(2)` call: success, failure with `errno == EINTR`,
or failure with any other `errno`. -/
inductive OpenRes where
  | ok
  | eintr
  | err
deriving DecidableEq, Repr

/-- Outcome of a `close(2)` call. -/
inductive CloseRes where
  | ok
  | eintr
  | err
deriving DecidableEq, Repr

/-- Outcome of one `write(2)` call inside the write loop of
`append_to_file`: `wok n` means the call returned `n` (the kernel
accepted `n` bytes, possibly fewer than requested); `weintr` is a
failure with `errno == EINTR`; `werr` any other failure. -/
inductive WriteEv where
  | wok (n : Nat)
  | weintr
  | werr
deriving DecidableEq, Repr

/-- Result of the write loop in `append_to_file` (C lines 54-66):
`done w` — all bytes written, `w` is the byte sequence that reached the
file; `failed w` — a non-`EINTR` write error after `w` was written;
`out w` — the supplied outcome list was exhausted with the loop still
running. -/
inductive WLOut where
  | done (w : List Nat)
  | failed (w : List Nat)
  | out (w : List Nat)
deriving DecidableEq, Repr

/-- The write loop of `append_to_file`:
`while (written < len) { w = write(..); if (w < 0) { if EINTR continue;
else fail } written += w; }`.  A `wok n` event writes
`min n remaining` bytes (a write never writes more than asked). -/
def writeLoop (data : List Nat) (evs : List WriteEv) : WLOut :=
  match data, evs with
  | [], _ => .done []
  | _ :: _, [] => .out []
  | d :: ds, ev :: es =>
    match ev with
    | .weintr => writeLoop (d :: ds) es
    | .werr => .failed []
    | .wok n =>
      match writeLoop ((d :: ds).drop n) es with
      | .done w => .done ((d :: ds).take n ++ w)
      | .failed w => .failed ((d :: ds).take n ++ w)
      | .out w => .out ((d :: ds).take n ++ w)

/-- I/O outcomes consumed by one `append_to_file` call. -/
structure AppendOracle where
  openR : OpenRes
  writes : List WriteEv
  closeR : CloseRes
deriving DecidableEq, Repr

/-- Result of `append_to_file`: `success` ⟺ the C function returns 0,
`error` ⟺ it returns -1, `hang` — the write loop's outcome list was
exhausted. -/
inductive AppendRes where
  | success
  | error
  | hang
deriving DecidableEq, Repr

/-- Model of C `append_to_file(data, len)` (lines 46-74).  Returns the
result together with the bytes actually appended to the file (partial
writes do reach the file even on a later failure). -/
def append_to_file (data : List Nat) (o : AppendOracle) : AppendRes × List Nat :=
  match o.openR with
  | .ok =>
    match writeLoop data o.writes with
    | .done w =>
      match o.closeR with
      | .ok => (.success, w)
      | _ => (.error, w)
    | .failed w => (.error, w)
    | .out w => (.hang, w)
  | _ => (.error, [])

/-- Outcome of one `read(2)` call inside `send_file_contents`:
`rok` — the call succeeded, returning `min 1024 remaining` bytes (zero
exactly at end of file); `reintr` — failure with `errno == EINTR`;
`rerr` — any other failure. -/
inductive ReadEv where
  | rok
  | reintr
  | rerr
deriving DecidableEq, Repr

/-- Outcome of one `send(2)` call inside the per-chunk send loop:
`sok n` — the call returned `n`; `seintr` — `EINTR`; `serr` — other
failure. -/
inductive SendEv where
  | sok (n : Nat)
  | seintr
  | serr
deriving DecidableEq, Repr

/-- Result of the inner send loop (C lines 92-104): `done rest` — chunk
fully sent, `rest` are the unconsumed send outcomes; `failed` — a
non-`EINTR` send error; `out` — outcomes exhausted. -/
inductive SLOut where
  | done (rest : List SendEv)
  | failed
  | out
deriving DecidableEq, Repr

/-- The send loop of `send_file_contents`: retries short sends, and on
`EINTR` simply continues (the shutdown flag is not consulted here). -/
def sendLoop (chunk : List Nat) (evs : List SendEv) : SLOut :=
  match chunk, evs with
  | [], es => .done es
  | _ :: _, [] => .out
  | b :: cs, ev :: es =>
    match ev with
    | .seintr => sendLoop (b :: cs) es
    | .serr => .failed
    | .sok n => sendLoop ((b :: cs).drop n) es

/-- Result of the read/send loop of `send_file_contents` (C lines
91-111): `done rest` — end of file reached and everything sent;
`rserr` — the function takes an error return (this includes a read that
fails with `EINTR`: the C loop condition `(bytes = read(..)) > 0` exits
on the -1 and line 107 treats `bytes < 0` as an error without checking
`errno`); `rsout` — outcomes exhausted. -/
inductive RSOut where
  | done (rest : List SendEv)
  | rserr
  | rsout
deriving DecidableEq, Repr

/-- The read loop of `send_file_contents`: reads up to 1024 bytes and
sends each chunk with `sendLoop`.  `rem` is the part of the file not yet
read. -/
def readSendLoop (rem : List Nat) (revs : List ReadEv) (sevs : List SendEv) : RSOut :=
  match revs with
  | [] => .rsout
  | r :: rs =>
    match r with
    | .reintr => .rserr
    | .rerr => .rserr
    | .rok =>
      if rem.isEmpty then .done sevs
      else
        match sendLoop (rem.take 1024) sevs with
        | .done rest => readSendLoop (rem.drop 1024) rs rest
        | .failed => .rserr
        | .out => .rsout

/-- I/O outcomes consumed by one `send_file_contents` call. -/
structure SFCOracle where
  openR : OpenRes
  reads : List ReadEv
  sends : List SendEv
  closeR : CloseRes
deriving DecidableEq, Repr

/-- Result of `send_file_contents`: `success` ⟺ return 0, `error` ⟺
return -1, `hang` — outcome lists exhausted. -/
inductive SFCRes where
  | success
  | error
  | hang
deriving DecidableEq, Repr

/-- Model of C `send_file_contents(client_fd)` (lines 80-119) applied to
a file whose current contents are `content`. -/
def send_file_contents (content : List Nat) (o : SFCOracle) : SFCRes :=
  match o.openR with
  | .ok =>
    match readSendLoop content o.reads o.sends with
    | .done _ =>
      match o.closeR with
      | .ok => .success
      | _ => .error
    | .rserr => .error
    | .rsout => .hang
  | _ => .error

/-- `SIGINT`. -/
def SIGINT : Nat := 2

/-- `SIGTERM`. -/
def SIGTERM : Nat := 15

/-- Model of C `signal_handler(signo)` (lines 35-40) as a transformer of
the `exit_requested` flag: on `SIGINT` or `SIGTERM` it sets the flag,
otherwise it leaves it unchanged.  This is the only writer of the flag
in the program. -/
def signal_handler (flag : Bool) (signo : Nat) : Bool :=
  if signo = SIGINT ∨ signo = SIGTERM then true else flag

/-- Value of `exit_requested` after the given signals have been
delivered, starting from its initializer `0` (false). -/
def flagAfter (signals : List Nat) : Bool :=
  signals.foldl signal_handler false

/-- Outcome of processing one complete record inside the scan loop of
`handle_client` (C lines 166-187): `.ok` — `append_to_file` and
`send_file_contents` both returned 0 (the record is on the file and the
whole file was echoed); `.appendFail` — `append_to_file` returned -1
having appended nothing (e.g. its `open` failed); `.sendFail` — the
append succeeded but `send_file_contents` returned -1 (no complete echo
was delivered). -/
inductive RecOut where
  | ok
  | appendFail
  | sendFail
deriving DecidableEq, Repr

/-- Outcome of one `recv(2)` call in `handle_client`: a chunk of
received bytes (`bytes > 0`), an orderly close by the peer
(`bytes == 0`), an `EINTR` failure, or any other failure. -/
inductive RecvEv where
  | chunk (data : List Nat)
  | closed
  | eintr
  | rerr
deriving DecidableEq, Repr

/-- Environment of one iteration of the `recv` loop of `handle_client`:
`flag0` is `exit_requested` as sampled by the `while` condition (line
135), `flag1` as sampled by the `EINTR` check (line 138), `recv` the
outcome of the `recv` call, `reallocOk` whether the buffer-growing
`realloc` (line 154) succeeds, and `recOuts n` the outcome of processing
the `n`-th complete record found in this iteration's scan. -/
structure HCIter where
  flag0 : Bool
  flag1 : Bool
  recv : RecvEv
  reallocOk : Bool
  recOuts : Nat → RecOut

/-- Observable state of one connection: `packet` — the contents of
`packet_buf` (`packet_size` is its length), `store` — the contents of
the data file, `responses` — the complete echoes successfully sent so
far on this connection, oldest first. -/
structure HCState where
  packet : List Nat
  store : List Nat
  responses : List (List Nat)
deriving DecidableEq, Repr

/-- Result of scanning the packet buffer (the `for` loop of C lines
166-187 plus the buffer compaction of lines 190-199): the new file
contents, the bytes `memmove`d to the front of the buffer (everything
after the last processed delimiter), and the echoes emitted. -/
structure ScanOut where
  store : List Nat
  leftover : List Nat
  echoes : List (List Nat)
deriving DecidableEq, Repr

/-- The scan of `packet_buf` for `'\n'`-terminated records.  `cur` holds
the bytes of the current record read so far (the range from `start` to
the scan index in C), `buf` the bytes not yet scanned, `n` counts the
records processed in this scan.  On `.ok` the record `cur ++ [10]` is
appended to the file and the new file contents are echoed; on a failure
the C code sets `start = i + 1` and leaves the `for` loop, so the failed
record is dropped from the buffer, the bytes after it are kept, and
scanning stops. -/
def scanPackets (store cur buf : List Nat) (outs : Nat → RecOut) (n : Nat) : ScanOut :=
  match buf with
  | [] => ⟨store, cur, []⟩
  | b :: bs =>
    if b = 10 then
      match outs n with
      | .ok =>
        let r := scanPackets (store ++ cur ++ [10]) [] bs outs (n + 1)
        ⟨r.store, r.leftover, (store ++ cur ++ [10]) :: r.echoes⟩
      | .appendFail => ⟨store, bs, []⟩
      | .sendFail => ⟨store ++ cur ++ [10], bs, []⟩
    else scanPackets store (cur ++ [b]) bs outs n

/-- The `recv` loop of `handle_client` (C lines 135-200).  Exiting the
loop (flag observed true, peer close, `recv` error, or `realloc`
failure) frees `packet_buf`, so the final state has an empty `packet`;
an exhausted iteration list returns the current state (the connection is
still in progress — this is the observation point between iterations). -/
def handle_client_loop (st : HCState) : List HCIter → HCState
  | [] => st
  | it :: rest =>
    if it.flag0 then ⟨[], st.store, st.responses⟩
    else
      match it.recv with
      | .eintr => if it.flag1 then ⟨[], st.store, st.responses⟩ else handle_client_loop st rest
      | .rerr => ⟨[], st.store, st.responses⟩
      | .closed => ⟨[], st.store, st.responses⟩
      | .chunk data =>
        if it.reallocOk then
          let r := scanPackets st.store [] (st.packet ++ data) it.recOuts 0
          handle_client_loop ⟨r.leftover, r.store, st.responses ++ r.echoes⟩ rest
        else ⟨[], st.store, st.responses⟩

/-- Model of C `handle_client(client_fd)` (lines 128-203) run against a
file whose contents are `store0`: `packet_buf` starts `NULL` and no
responses have been sent. -/
def handle_client (store0 : List Nat) (iters : List HCIter) : HCState :=
  handle_client_loop ⟨[], store0, []⟩ iters

/-- All record processing succeeds. -/
def allOk : Nat → RecOut := fun _ => .ok

/-- One error-free loop iteration delivering the chunk `d`. -/
def okChunk (d : List Nat) : HCIter :=
  ⟨false, false, .chunk d, true, allOk⟩

/-- A loop iteration in which the peer closes the connection. -/
def closedIter : HCIter :=
  ⟨false, false, .closed, true, allOk⟩

/-- The `'\n'`-terminated records of a byte sequence, given that the
bytes `cur` of the current record were already seen: each record
includes its delimiter. -/
def recordsAux (cur : List Nat) : List Nat → List (List Nat)
  | [] => []
  | b :: bs => if b = 10 then (cur ++ [10]) :: recordsAux [] bs else recordsAux (cur ++ [b]) bs

/-- The `'\n'`-terminated records of a byte sequence, in order. -/
def records (l : List Nat) : List (List Nat) :=
  recordsAux [] l

/-- The undelimited suffix of a byte sequence (the bytes after its last
delimiter), given the bytes `cur` of the current record already seen. -/
def tailFrom (cur : List Nat) : List Nat → List Nat
  | [] => cur
  | b :: bs => if b = 10 then tailFrom [] bs else tailFrom (cur ++ [b]) bs

/-- The echoes produced by appending the given records, in order, to a
file whose contents are `store`: after each record the whole file is
sent. -/
def echoesFrom (store : List Nat) : List (List Nat) → List (List Nat)
  | [] => []
  | r :: rs => (store ++ r) :: echoesFrom (store ++ r) rs

/-- Outcome of one `accept(2)` call in the main loop: an accepted
connection whose handler consumes the given iteration environments, an
`EINTR` failure, or any other failure. -/
inductive AcceptEv where
  | conn (run : List HCIter)
  | aeintr
  | aerr

/-- Environment of one iteration of the accept loop (C lines 267-300):
`flag0` is `exit_requested` at the `while` condition, `flag1` at the
`EINTR` check (line 272), `ev` the outcome of `accept`. -/
structure MainIter where
  flag0 : Bool
  flag1 : Bool
  ev : AcceptEv

/-- The accept loop, threading the data file (`none` — the file does not
exist; it is created by the first successful append).  Returns `some
file` when the loop exits (flag observed true before `accept`, or
`accept` interrupted with the flag set), `none` when the iteration list
is exhausted with the loop still running.  A non-`EINTR` `accept`
failure is logged and the loop continues (line 282). -/
def accept_loop (file : Option (List Nat)) : List MainIter → Option (Option (List Nat))
  | [] => none
  | it :: rest =>
    if it.flag0 then some file
    else
      match it.ev with
      | .aeintr => if it.flag1 then some file else accept_loop file rest
      | .aerr => accept_loop file rest
      | .conn run =>
        let st := handle_client (file.getD []) run
        let file' :=
          match file with
          | some _ => some st.store
          | none => if st.store.isEmpty then none else some st.store
        accept_loop file' rest

/-- Which setup-phase steps of `main` succeed, in program order:
`sigaction(SIGINT)`, `sigaction(SIGTERM)`, `socket`, `setsockopt`,
`bind`, `listen`.  Each failure jumps to `cleanup` with `ret = -1`. -/
structure SetupOracle where
  sigintOk : Bool
  sigtermOk : Bool
  socketOk : Bool
  sockoptOk : Bool
  bindOk : Bool
  listenOk : Bool
deriving DecidableEq, Repr

/-- The whole setup phase succeeded. -/
def setupOk (o : SetupOracle) : Bool :=
  o.sigintOk && o.sigtermOk && o.socketOk && o.sockoptOk && o.bindOk && o.listenOk

/-- `server_fd != -1` at `cleanup`: the `socket` call was reached and
succeeded. -/
def socketCreated (o : SetupOracle) : Bool :=
  o.sigintOk && o.sigtermOk && o.socketOk

/-- Model of `remove(DATA_FILE)` at `cleanup` (C line 314): the file is
gone afterwards; a missing file (`ENOENT`) is deliberately ignored, and
no `remove` outcome affects the process exit code. -/
def remove_file (_file : Option (List Nat)) : Option (List Nat) :=
  none

/-- Observable outcome of `main`: the returned exit code, whether the
listening socket was closed at `cleanup` (it is whenever it was ever
opened), and the data file after `cleanup`. -/
structure MainResult where
  exit : Int
  listenerClosed : Bool
  fileAfter : Option (List Nat)
deriving DecidableEq, Repr

/-- Model of C `main` (lines 205-320): run setup; on any setup failure
go to `cleanup` with `ret = -1`; otherwise run the accept loop and, when
it exits, perform `cleanup` (close the listening socket, remove the data
file) and return `ret = 0`.  `none` means the accept loop is still
running (the iteration list was exhausted). -/
def main (o : SetupOracle) (file0 : Option (List Nat)) (iters : List MainIter) :
    Option MainResult :=
  if setupOk o then
    match accept_loop file0 iters with
    | some fileEnd => some ⟨0, true, remove_file fileEnd⟩
    | none => none
  else some ⟨-1, socketCreated o, remove_file file0⟩

/-- The write loop ended in a non-`EINTR` write failure. -/
def wlFailed : WLOut → Bool
  | .failed _ => true
  | _ => false

/-- The write loop wrote the whole span. -/
def wlDone : WLOut → Bool
  | .done _ => true
  | _ => false

/-- The error condition of the Persistent Log Store `append` operation
as the specification states it: "Fails with an I/O error if open, write,
or close fails for a reason other than interruption."  Modelled from the
spec's words, for comparison with the behaviour of `append_to_file`:
each of the three syscalls contributes an error only when it fails with
an `errno` other than `EINTR`. -/
def specAppendErrorCond (data : List Nat) (o : AppendOracle) : Bool :=
  decide (o.openR = OpenRes.err) || wlFailed (writeLoop data o.writes)
    || (wlDone (writeLoop data o.writes) && decide (o.closeR = CloseRes.err))

/-! ### Shared lemmas -/

/-- An error-free scan appends every complete record to the file,
leaves exactly the undelimited suffix in the buffer, and echoes the file
contents after each append. -/
theorem scanPackets_allOk (buf : List Nat) : ∀ store cur n,
    scanPackets store cur buf allOk n =
      ⟨store ++ (recordsAux cur buf).flatten, tailFrom cur buf,
        echoesFrom store (recordsAux cur buf)⟩ := by
  induction buf with
  | nil => intro store cur n; simp [scanPackets, recordsAux, tailFrom, echoesFrom]
  | cons b bs ih =>
    intro store cur n
    by_cases hb : b = 10
    · subst hb
      simp [scanPackets, recordsAux, tailFrom, allOk, echoesFrom, ih, List.append_assoc]
    · simp [scanPackets, recordsAux, tailFrom, hb, ih]

/-- Record splitting distributes over append. -/
theorem recordsAux_append (x : List Nat) : ∀ (c y : List Nat),
    recordsAux c (x ++ y) = recordsAux c x ++ recordsAux (tailFrom c x) y := by
  induction x with
  | nil => intro c y; simp [recordsAux, tailFrom]
  | cons b bs ih =>
    intro c y
    by_cases hb : b = 10
    · subst hb; simp [recordsAux, tailFrom, ih]
    · simp [recordsAux, tailFrom, hb, ih]

/-- The undelimited suffix of an appended sequence. -/
theorem tailFrom_append (x : List Nat) : ∀ (c y : List Nat),
    tailFrom c (x ++ y) = tailFrom (tailFrom c x) y := by
  induction x with
  | nil => intro c y; simp [tailFrom]
  | cons b bs ih =>
    intro c y
    by_cases hb : b = 10
    · subst hb; simp [tailFrom, ih]
    · simp [tailFrom, hb, ih]

/-- A delimiter-free sequence contains no record. -/
theorem recordsAux_no_delim (l : List Nat) : ∀ c, (10 : Nat) ∉ l → recordsAux c l = [] := by
  induction l with
  | nil => intro c _; simp [recordsAux]
  | cons b bs ih =>
    intro c h
    have hb : b ≠ 10 := fun hb => h (hb ▸ List.mem_cons_self b bs)
    simp [recordsAux, hb, ih _ (fun hm => h (List.mem_cons_of_mem b hm))]

/-- A delimiter-free sequence is wholly part of the current record. -/
theorem tailFrom_no_delim (l : List Nat) : ∀ c, (10 : Nat) ∉ l → tailFrom c l = c ++ l := by
  induction l with
  | nil => intro c _; simp [tailFrom]
  | cons b bs ih =>
    intro c h
    have hb : b ≠ 10 := fun hb => h (hb ▸ List.mem_cons_self b bs)
    simp [tailFrom, hb, ih _ (fun hm => h (List.mem_cons_of_mem b hm))]

/-- The undelimited suffix holds no delimiter. -/
theorem tailFrom_not_mem (l : List Nat) : ∀ c, (10 : Nat) ∉ c → (10 : Nat) ∉ tailFrom c l := by
  induction l with
  | nil => intro c h; simpa [tailFrom] using h
  | cons b bs ih =>
    intro c h
    by_cases hb : b = 10
    · subst hb; simpa [tailFrom] using ih [] (by simp)
    · have h2 : (10 : Nat) ∉ c ++ [b] := by
        simp only [List.mem_append, List.mem_singleton]
        rintro (hc | hcb)
        · exact h hc
        · exact hb hcb.symm
      simpa [tailFrom, hb] using ih (c ++ [b]) h2

/-- A delimiter-free already-buffered part can be moved into the current
record. -/
theorem recordsAux_shift (p : List Nat) (c d : List Nat) (h : (10 : Nat) ∉ p) :
    recordsAux c (p ++ d) = recordsAux (c ++ p) d := by
  rw [recordsAux_append, recordsAux_no_delim p c h, tailFrom_no_delim p c h]
  simp

/-- A delimiter-free already-buffered part can be moved into the current
record (suffix version). -/
theorem tailFrom_shift (p : List Nat) (c d : List Nat) (h : (10 : Nat) ∉ p) :
    tailFrom c (p ++ d) = tailFrom (c ++ p) d := by
  rw [tailFrom_append, tailFrom_no_delim p c h]

/-- Records plus undelimited suffix reassemble the input: no byte is
lost or duplicated. -/
theorem join_recordsAux_tailFrom (l : List Nat) : ∀ c,
    (recordsAux c l).flatten ++ tailFrom c l = c ++ l := by
  induction l with
  | nil => intro c; simp [recordsAux, tailFrom]
  | cons b bs ih =>
    intro c
    by_cases hb : b = 10
    · subst hb
      have h0 := ih []
      simp only [List.nil_append] at h0
      simp [recordsAux, tailFrom, List.append_assoc, h0]
    · simpa [recordsAux, tailFrom, hb, List.append_assoc] using ih (c ++ [b])

/-- There are as many records as delimiters. -/
theorem recordsAux_length (l : List Nat) : ∀ c, (recordsAux c l).length = l.count 10 := by
  induction l with
  | nil => intro c; simp [recordsAux]
  | cons b bs ih =>
    intro c
    by_cases hb : b = 10
    · subst hb; simp [recordsAux, ih, List.count_cons]
    · simp [recordsAux, hb, ih, List.count_cons]

/-- Echo production splits along a split of the record list. -/
theorem echoesFrom_append (r1 : List (List Nat)) : ∀ (s : List Nat) (r2 : List (List Nat)),
    echoesFrom s (r1 ++ r2) = echoesFrom s r1 ++ echoesFrom (s ++ r1.flatten) r2 := by
  induction r1 with
  | nil => intro s r2; simp [echoesFrom]
  | cons r rs ih =>
    intro s r2
    simp [echoesFrom, ih, List.append_assoc]

/-- One echo per record. -/
theorem echoesFrom_length (rs : List (List Nat)) : ∀ s, (echoesFrom s rs).length = rs.length := by
  induction rs with
  | nil => intro s; simp [echoesFrom]
  | cons r rs ih => intro s; simp [echoesFrom, ih]

/-- The `i`-th echo is the store followed by the first `i + 1` records. -/
theorem echoesFrom_getD (rs : List (List Nat)) : ∀ (s : List Nat) (i : Nat), i < rs.length →
    (echoesFrom s rs).getD i [] = s ++ ((rs.take (i + 1)).flatten) := by
  induction rs with
  | nil => intro s i h; simp at h
  | cons r rl ih =>
    intro s i h
    cases i with
    | zero => simp [echoesFrom]
    | succ j =>
      have hj : j < rl.length := by simpa using h
      have h1 := ih (s ++ r) j hj
      simp only [echoesFrom, List.getD_cons_succ, List.take_succ_cons, List.flatten_cons]
      rw [h1, List.append_assoc]

/-- Running the connection handler over any sequence of error-free
chunk deliveries appends every completed record to the file, emits the
corresponding echoes, and keeps exactly the undelimited suffix in the
packet buffer. -/
theorem handle_client_loop_okChunks (chunks : List (List Nat)) :
    ∀ (st : HCState) (rest : List HCIter), (10 : Nat) ∉ st.packet →
    handle_client_loop st (chunks.map okChunk ++ rest) =
      handle_client_loop
        ⟨tailFrom st.packet chunks.flatten,
         st.store ++ (recordsAux st.packet chunks.flatten).flatten,
         st.responses ++ echoesFrom st.store (recordsAux st.packet chunks.flatten)⟩ rest := by
  induction chunks with
  | nil =>
    intro st rest _
    simp [recordsAux, tailFrom, echoesFrom]
  | cons c cs ih =>
    intro st rest h
    have hshift₁ : recordsAux [] (st.packet ++ c) = recordsAux st.packet c := by
      simpa using recordsAux_shift st.packet [] c h
    have hshift₂ : tailFrom [] (st.packet ++ c) = tailFrom st.packet c := by
      simpa using tailFrom_shift st.packet [] c h
    have hstep : handle_client_loop st ((c :: cs).map okChunk ++ rest) =
        handle_client_loop
          ⟨tailFrom st.packet c,
           st.store ++ (recordsAux st.packet c).flatten,
           st.responses ++ echoesFrom st.store (recordsAux st.packet c)⟩
          (cs.map okChunk ++ rest) := by
      simp only [List.map_cons, List.cons_append, handle_client_loop, okChunk]
      rw [scanPackets_allOk, hshift₁, hshift₂]
      simp
    rw [hstep, ih _ rest (tailFrom_not_mem c st.packet h)]
    simp only [List.flatten_cons, recordsAux_append, tailFrom_append, echoesFrom_append,
      List.flatten_append, List.append_assoc]

/-- Exiting the recv loop on an orderly peer close frees the packet
buffer and leaves file and responses unchanged. -/
theorem handle_client_loop_closed (st : HCState) :
    handle_client_loop st [closedIter] = ⟨[], st.store, st.responses⟩ := by
  simp [handle_client_loop, closedIter]

/-- When the write loop reports completion, exactly the requested bytes
reached the file (short writes and `EINTR` retries included). -/
theorem writeLoop_done_eq (evs : List WriteEv) : ∀ (data w : List Nat),
    writeLoop data evs = .done w → w = data := by
  induction evs with
  | nil =>
    intro data w h
    cases data with
    | nil => simpa [writeLoop, eq_comm] using h
    | cons d ds => simp [writeLoop] at h
  | cons ev es ih =>
    intro data w h
    cases data with
    | nil => simpa [writeLoop, eq_comm] using h
    | cons d ds =>
      cases ev with
      | weintr => exact ih (d :: ds) w (by simpa [writeLoop] using h)
      | werr => simp [writeLoop] at h
      | wok n =>
        simp only [writeLoop] at h
        cases hrec : writeLoop ((d :: ds).drop n) es with
        | done w2 =>
          rw [hrec] at h
          simp only [WLOut.done.injEq] at h
          have hd := ih ((d :: ds).drop n) w2 hrec
          subst hd
          rw [← h, List.take_append_drop]
        | failed w2 => rw [hrec] at h; simp at h
        | out w2 => rw [hrec] at h; simp at h

/-- Whether the accept loop exits within its supplied outcomes does not
depend on the data file contents. -/
theorem accept_loop_isSome (iters : List MainIter) : ∀ (f1 f2 : Option (List Nat)),
    (accept_loop f1 iters).isSome = (accept_loop f2 iters).isSome := by
  induction iters with
  | nil => intro f1 f2; rfl
  | cons it rest ih =>
    intro f1 f2
    by_cases h0 : it.flag0 = true
    · simp [accept_loop, h0]
    · cases hev : it.ev with
      | aeintr =>
        by_cases h1 : it.flag1 = true
        · simp [accept_loop, h0, hev, h1]
        · simpa [accept_loop, h0, hev, h1] using ih _ _
      | aerr => simpa [accept_loop, h0, hev] using ih _ _
      | conn run => simpa [accept_loop, h0, hev] using ih _ _

/-- Once the flag is set, folding further signal deliveries through the
handler leaves it set. -/
theorem foldl_signal_handler_true (more : List Nat) :
    more.foldl signal_handler true = true := by
  induction more with
  | nil => rfl
  | cons s ss ih =>
    show List.foldl signal_handler (signal_handler true s) ss = true
    have hs : signal_handler true s = true := by simp [signal_handler]
    rw [hs]; exact ih

/-! ### Claims -/

/-- C1 (amended — the claim's proviso "no append error occurred" must be
strengthened to "no append, echo, or buffer-reallocation error
occurred"): for every sequence of bytes received on one connection, if
the handler runs to completion with every append and echo succeeding and
every reallocation succeeding, the persistent store afterwards equals
its prior contents followed by the concatenation of the
delimiter-terminated records in receipt order — one record per delimiter
received — and the undelimited trailing bytes are absent from the
store. -/
theorem C1_store_after_connection (store0 : List Nat) (chunks : List (List Nat)) :
    (handle_client store0 (chunks.map okChunk ++ [closedIter])).store =
        store0 ++ (records chunks.flatten).flatten ∧
      (records chunks.flatten).length = chunks.flatten.count 10 := by
  constructor
  · unfold handle_client
    rw [handle_client_loop_okChunks _ _ _ (by simp), handle_client_loop_closed]
    simp [records]
  · simpa [records] using recordsAux_length chunks.flatten []

/-- C1 counterexample: the claim as stated fails.  The client sends
`"a\nb\n"` (k = 2 delimiters) in one chunk and then closes; the append
of record `"a\n"` succeeds but its echo fails, so the handler stops
scanning the chunk, and the connection then ends with `"b\n"` still
buffered.  No append error occurred, yet the final store is `"a\n"`, not
the concatenation `"a\nb\n"` of the two received records. -/
theorem C1_counterexample :
    (handle_client []
        [⟨false, false, .chunk [97, 10, 98, 10], true, fun n => if n = 0 then .sendFail else .ok⟩,
          closedIter]).store = [97, 10] ∧
      [97, 10] ≠ ([] : List Nat) ++ (records [97, 10, 98, 10]).flatten := by
  constructor
  · decide
  · decide

/-- C2: on an error-free connection the server sends one response per
complete record, and the response sent immediately after the `i`-th
record equals, byte for byte, the store contents immediately after
appending that record: the prior store contents (records from earlier
connections of the same process run included) followed by the first
`i` records of this connection. -/
theorem C2_echo_equals_store (store0 : List Nat) (chunks : List (List Nat)) :
    ((handle_client store0 (chunks.map okChunk ++ [closedIter])).responses.length =
        (records chunks.flatten).length) ∧
      ∀ i, i < (records chunks.flatten).length →
        (handle_client store0 (chunks.map okChunk ++ [closedIter])).responses.getD i [] =
          store0 ++ ((records chunks.flatten).take (i + 1)).flatten := by
  have hrun : (handle_client store0 (chunks.map okChunk ++ [closedIter])).responses =
      echoesFrom store0 (records chunks.flatten) := by
    unfold handle_client
    rw [handle_client_loop_okChunks _ _ _ (by simp), handle_client_loop_closed]
    simp [records]
  rw [hrun]
  exact ⟨echoesFrom_length _ store0, fun i hi => echoesFrom_getD _ store0 i hi⟩

/-- C2 witness: the client sends `"h\nw\n"`; the second response is the
whole store `"h\nw\n"`, not just the new record. -/
theorem C2_echo_equals_store_witness :
    (handle_client [] ([[104, 10, 119, 10]].map okChunk ++ [closedIter])).responses.getD 1 [] =
      [] ++ ((records ([[104, 10, 119, 10]] : List (List Nat)).flatten).take 2).flatten :=
  (C2_echo_equals_store [] [[104, 10, 119, 10]]).2 1 (by decide)

/-- C3 (code bug): evaluation of the code at the failing input.  The
client sends `"a\nb\n"`; the append of `"a\n"` fails, and the spec (and
the code's own comment, "We can break and close the connection") require
the connection to be terminated with no further records processed.
Instead the `break` at line 176 only leaves the inner `for` loop: the
handler keeps the connection open, `recv`s the next chunk `"c\n"`, and
then appends and echoes both the leftover record `"b\n"` of the failed
chunk and the new record `"c\n"`. -/
theorem C3_code_behavior :
    (handle_client []
        [⟨false, false, .chunk [97, 10, 98, 10], true, fun n => if n = 0 then .appendFail else .ok⟩,
          ⟨false, false, .chunk [99, 10], true, allOk⟩, closedIter]) =
      ⟨[], [98, 10, 99, 10], [[98, 10], [98, 10, 99, 10]]⟩ := by
  decide

/-- C4: at every observation point between handler iterations of an
error-free connection, the packet buffer holds exactly the suffix of the
bytes received so far that is not yet terminated by a delimiter: the
records processed so far followed by the buffer reassemble the received
bytes exactly (no byte lost or duplicated, records may span chunks and
chunks may hold many delimiters), the buffer holds no delimiter, and
everything up through the last delimiter is on the store. -/
theorem C4_buffer_invariant (store0 : List Nat) (chunks : List (List Nat)) (n : Nat) :
    (records ((chunks.take n).flatten)).flatten ++
          (handle_client store0 ((chunks.take n).map okChunk)).packet =
        (chunks.take n).flatten ∧
      (handle_client store0 ((chunks.take n).map okChunk)).packet.count 10 = 0 ∧
      (handle_client store0 ((chunks.take n).map okChunk)).store =
        store0 ++ (records ((chunks.take n).flatten)).flatten := by
  have hrun : handle_client store0 ((chunks.take n).map okChunk) =
      ⟨tailFrom [] (chunks.take n).flatten,
        store0 ++ (recordsAux [] (chunks.take n).flatten).flatten,
        echoesFrom store0 (recordsAux [] (chunks.take n).flatten)⟩ := by
    unfold handle_client
    rw [← List.append_nil ((chunks.take n).map okChunk),
      handle_client_loop_okChunks _ _ _ (by simp)]
    simp [handle_client_loop]
  rw [hrun]
  refine ⟨?_, ?_, rfl⟩
  · simpa [records] using join_recordsAux_tailFrom (chunks.take n).flatten []
  · exact List.count_eq_zero.mpr (tailFrom_not_mem _ [] (by simp))

/-- C5 (amended — the claim's uniform rule holds only for `accept` and
`recv`): `recv` and `accept` retry an `EINTR` failure when the shutdown
flag is false and unwind their loop when it is true; the file-write and
socket-send loops retry `EINTR` unconditionally, without consulting the
flag (no unwind on shutdown); and a file read interrupted by a signal is
not retried at all — `send_file_contents` treats it as a read failure,
i.e. a per-connection error. -/
theorem C5_eintr_behavior :
    (∀ (st : HCState) (ra : Bool) (ro : Nat → RecOut) (rest : List HCIter),
        handle_client_loop st (⟨false, false, .eintr, ra, ro⟩ :: rest) =
          handle_client_loop st rest) ∧
    (∀ (st : HCState) (ra : Bool) (ro : Nat → RecOut) (rest : List HCIter),
        handle_client_loop st (⟨false, true, .eintr, ra, ro⟩ :: rest) =
          ⟨[], st.store, st.responses⟩) ∧
    (∀ (f : Option (List Nat)) (rest : List MainIter),
        accept_loop f (⟨false, false, .aeintr⟩ :: rest) = accept_loop f rest) ∧
    (∀ (f : Option (List Nat)) (rest : List MainIter),
        accept_loop f (⟨false, true, .aeintr⟩ :: rest) = some f) ∧
    (∀ (d : Nat) (ds : List Nat) (es : List WriteEv),
        writeLoop (d :: ds) (.weintr :: es) = writeLoop (d :: ds) es) ∧
    (∀ (b : Nat) (cs : List Nat) (es : List SendEv),
        sendLoop (b :: cs) (.seintr :: es) = sendLoop (b :: cs) es) ∧
    (∀ (rem : List Nat) (rs : List ReadEv) (ss : List SendEv),
        readSendLoop rem (.reintr :: rs) ss = .rserr) := by
  refine ⟨?_, ?_, ?_, ?_, ?_, ?_, ?_⟩ <;> intros <;> rfl

/-- C5 counterexample: the claim as stated fails.  With the shutdown
flag false, a `read` of the store interrupted by a signal (`EINTR`) is
not retried transparently: `send_file_contents` returns an error (the
per-connection error path), whereas the identical call without the
interruption succeeds. -/
theorem C5_counterexample :
    send_file_contents [97, 10] ⟨.ok, [.reintr], [], .ok⟩ = .error ∧
      send_file_contents [97, 10] ⟨.ok, [.rok, .rok], [.sok 2], .ok⟩ = .success := by
  constructor
  · decide
  · decide

/-- C6 (amended): `append_to_file` opens the store in write-append mode
creating it if absent and, on success, has written the entire byte span
(retrying short writes and interrupted writes); but it returns an error
if and only if the open fails for ANY reason (interruption included), or
the write loop fails for a reason other than interruption, or — after a
complete write — the close fails for ANY reason (interruption
included). -/
theorem C6_append_error_characterization (data : List Nat) (o : AppendOracle) :
    ((append_to_file data o).1 = .error ↔
        (o.openR ≠ .ok ∨ wlFailed (writeLoop data o.writes) = true ∨
          (wlDone (writeLoop data o.writes) = true ∧ o.closeR ≠ .ok))) ∧
      ((append_to_file data o).1 = .success → (append_to_file data o).2 = data) := by
  constructor
  · cases ho : o.openR <;> cases hwl : writeLoop data o.writes <;> cases hc : o.closeR <;>
      simp [append_to_file, ho, hwl, hc, wlFailed, wlDone]
  · intro hs
    obtain ⟨op, ws, cl⟩ := o
    cases op
    case eintr => exact absurd hs (by simp [append_to_file])
    case err => exact absurd hs (by simp [append_to_file])
    case ok =>
      cases hwl : writeLoop data ws with
      | done w =>
        cases cl
        case ok =>
          have hw := writeLoop_done_eq ws data w hwl
          simp [append_to_file, hwl, hw]
        case eintr => simp [append_to_file, hwl] at hs
        case err => simp [append_to_file, hwl] at hs
      | failed w => simp [append_to_file, hwl] at hs
      | out w => simp [append_to_file, hwl] at hs

/-- C6 witness: a fully successful append of `"\n"` wrote exactly that
byte. -/
theorem C6_append_error_characterization_witness :
    (append_to_file [10] ⟨.ok, [.wok 1], .ok⟩).2 = [10] :=
  (C6_append_error_characterization [10] ⟨.ok, [.wok 1], .ok⟩).2 (by decide)

/-- C6 counterexample: the claim as stated fails.  When open and the
whole write succeed but `close` fails with `errno == EINTR` — a failure
whose reason IS interruption — the C code (line 68) still returns -1,
yet the spec's error condition ("open, write, or close fails for a
reason other than interruption") does not hold. -/
theorem C6_counterexample :
    (append_to_file [10] ⟨.ok, [.wok 1], .eintr⟩).1 = .error ∧
      specAppendErrorCond [10] ⟨.ok, [.wok 1], .eintr⟩ = false := by
  constructor
  · decide
  · decide

/-- C7: whenever setup succeeded and the main loop exits (shutdown flag
observed true before, or observed after an interrupted `accept`),
regardless of what the accepted connections did, the process closes the
listening socket, removes the persistent store file (absence afterwards,
a missing file being no error), and returns exit code 0. -/
theorem C7_shutdown_cleanup (o : SetupOracle) (file0 : Option (List Nat))
    (iters : List MainIter) (r : MainResult) (hsetup : setupOk o = true)
    (hrun : main o file0 iters = some r) :
    r.exit = 0 ∧ r.listenerClosed = true ∧ r.fileAfter = none := by
  rw [main, hsetup] at hrun
  cases hacc : accept_loop file0 iters with
  | none => rw [hacc] at hrun; simp at hrun
  | some f =>
    rw [hacc] at hrun
    simp only [if_true, Option.some.injEq] at hrun
    subst hrun
    exact ⟨rfl, rfl, rfl⟩

/-- C7 witness: with a fully successful setup and the flag observed true
at the first loop check, the process exits 0 with the listener closed
and the store file gone. -/
theorem C7_shutdown_cleanup_witness :
    (⟨0, true, none⟩ : MainResult).exit = 0 ∧
      (⟨0, true, none⟩ : MainResult).listenerClosed = true ∧
      (⟨0, true, none⟩ : MainResult).fileAfter = none :=
  C7_shutdown_cleanup ⟨true, true, true, true, true, true⟩ none [⟨true, false, .aerr⟩]
    ⟨0, true, none⟩ (by decide) (by decide)

/-- C8: the shutdown flag is written only by the signal handler, whose
only action is latching it to true on `SIGINT` or `SIGTERM`; the flag
value after any sequence of deliveries is the handler's fold, and once
true it stays true under every further delivery; and both the
per-connection recv loop and the accept loop poll the flag at their loop
condition and exit when it is observed true. -/
theorem C8_flag_latch :
    (∀ (sigs more : List Nat), flagAfter sigs = true →
        (sigs ++ more).foldl signal_handler false = true) ∧
    (∀ (f : Bool) (s : Nat), signal_handler f s = true ↔ (f = true ∨ s = SIGINT ∨ s = SIGTERM)) ∧
    (∀ (st : HCState) (it : HCIter) (rest : List HCIter), it.flag0 = true →
        handle_client_loop st (it :: rest) = ⟨[], st.store, st.responses⟩) ∧
    (∀ (f : Option (List Nat)) (it : MainIter) (rest : List MainIter), it.flag0 = true →
        accept_loop f (it :: rest) = some f) := by
  refine ⟨?_, ?_, ?_, ?_⟩
  · intro sigs more h
    rw [List.foldl_append]
    rw [flagAfter] at h
    rw [h]
    exact foldl_signal_handler_true more
  · intro f s
    by_cases h1 : s = SIGINT
    · simp [signal_handler, h1]
    · by_cases h2 : s = SIGTERM
      · simp [signal_handler, h2]
      · simp [signal_handler, h1, h2]
  · intro st it rest h
    simp [handle_client_loop, h]
  · intro f it rest h
    simp [accept_loop, h]

/-- C8 witness: after `SIGINT` the flag is true and stays true after a
further `SIGTERM`. -/
theorem C8_flag_latch_witness :
    ([2] ++ [15] : List Nat).foldl signal_handler false = true :=
  C8_flag_latch.1 [2] [15] (by decide)

/-- C9: if the `realloc` growing the packet buffer for a newly received
chunk fails, the handler terminates the connection at once: none of the
chunk's bytes — complete records of the failed chunk included — reach
the store, no response is sent for them, the buffer is released, and no
further iteration of the connection takes place; the state is exactly
the one produced by the preceding error-free traffic. -/
theorem C9_realloc_failure (store0 : List Nat) (chunks : List (List Nat)) (d : List Nat)
    (outs : Nat → RecOut) (rest : List HCIter) :
    handle_client store0 (chunks.map okChunk ++ ⟨false, false, .chunk d, false, outs⟩ :: rest) =
      ⟨[], store0 ++ (records chunks.flatten).flatten,
        echoesFrom store0 (records chunks.flatten)⟩ := by
  unfold handle_client
  rw [handle_client_loop_okChunks _ _ _ (by simp)]
  simp [handle_client_loop, records]

/-- C10: on every exit path of the process the store file removal is
performed and a missing file is no error: every terminating run ends
with the file absent; a setup-phase failure (even one before the socket
exists) still reaches the cleanup that removes the file and returns
nonzero; and the whole observable result of `main` is independent of
whether the store file initially exists (`remove` of a nonexistent file
is treated as success, and deletion is not conditional on an orderly
shutdown). -/
theorem C10_remove_on_every_exit :
    (∀ (o : SetupOracle) (file0 : Option (List Nat)) (iters : List MainIter) (r : MainResult),
        main o file0 iters = some r → r.fileAfter = none) ∧
    (∀ (o : SetupOracle) (file0 : Option (List Nat)) (iters : List MainIter),
        setupOk o = false → main o file0 iters = some ⟨-1, socketCreated o, none⟩) ∧
    (∀ (o : SetupOracle) (f1 f2 : Option (List Nat)) (iters : List MainIter),
        main o f1 iters = main o f2 iters) := by
  refine ⟨?_, ?_, ?_⟩
  · intro o file0 iters r h
    rw [main] at h
    by_cases hs : setupOk o = true
    · rw [hs] at h
      cases hacc : accept_loop file0 iters with
      | none => rw [hacc] at h; simp at h
      | some f =>
        rw [hacc] at h
        simp only [if_true, Option.some.injEq] at h
        subst h; rfl
    · simp only [hs] at h
      simp only [Bool.false_eq_true, if_false, Option.some.injEq] at h
      subst h; rfl
  · intro o file0 iters h
    rw [main, h]
    simp [remove_file]
  · intro o f1 f2 iters
    rw [main, main]
    by_cases hs : setupOk o = true
    · rw [hs]
      have hi := accept_loop_isSome iters f1 f2
      cases h1 : accept_loop f1 iters <;> cases h2 : accept_loop f2 iters <;>
        rw [h1, h2] at hi <;> simp_all [remove_file]
    · simp [hs, remove_file]

/-- C10 witness: a run whose very first setup step (`sigaction(SIGINT)`)
fails, started with an existing store file, still removes the file and
exits nonzero without ever reaching `bind` or the accept loop. -/
theorem C10_remove_on_every_exit_witness :
    main ⟨false, true, true, true, true, true⟩ (some [97]) [] =
      some ⟨-1, socketCreated ⟨false, true, true, true, true, true⟩, none⟩ :=
  C10_remove_on_every_exit.2.1 ⟨false, true, true, true, true, true⟩ (some [97]) [] (by decide)

end AesdSocket
